import Mathlib

/-
  Verification of the reobject manager layer (src/reobject/models/manager.py).

  Shallow embedding conventions:
  * Python objects become Lean structures; mutation becomes explicit state passing.
  * `datetime.utcnow()` becomes an explicit `now : Nat` parameter (UTC instants
    modelled as naturals; only ordering and equality of timestamps matter here).
  * Python exceptions become `Except`; the `AttributeError` raised by the two
    descriptors (what the specification calls `AccessError`) is `AttrError`.
  * Object identity (needed only for the freshness of Related Managers) is
    modelled by an allocation counter: each construction consumes a counter
    value stored in the object and bumps the counter.
  * The global `ModelStoreMapping`, the `QuerySet` engine and the error classes
    live outside the provided source file; they are modelled from the
    specification, each such definition carries a `Modelled from the spec:`
    doc comment.
-/

namespace Reobject

/-- A field value of a model instance: the fields exercised by this layer are
integers (primary keys, timestamps) and strings (names). -/
inductive Val where
  | nat : Nat → Val
  | str : String → Val
deriving DecidableEq, Repr

/-- A model instance, as the manager layer sees it: its model type name
(Python `type(instance).__name__`), its identity `pk`, a `name` field, the
`created`/`updated` timestamps stamped by `Manager._add`, and its foreign-key
fields, each mapping a relation field name to the referenced instance's pk. -/
structure MInstance where
  typeName : String
  pk : Nat
  name : String
  created : Nat
  updated : Nat
  fks : List (String × Nat)
deriving DecidableEq, Repr

/-- Modelled from the spec: field lookup by name including suffixed lookup keys
(`field__pk`) used by `filter`/`exclude` and Related Manager scoping (spec
paragraph 6, Model layer boundary contract). Built-in fields resolve directly;
a key `f__pk` resolves to the pk stored in the foreign-key field `f`. -/
def MInstance.attr (x : MInstance) (key : String) : Option Val :=
  if key = "pk" then some (Val.nat x.pk)
  else if key = "name" then some (Val.str x.name)
  else if key = "created" then some (Val.nat x.created)
  else if key = "updated" then some (Val.nat x.updated)
  else
    match x.fks.find? (fun p => p.1 ++ "__pk" == key) with
    | some p => some (Val.nat p.2)
    | none => none

/-- Modelled from the spec: a keyword-predicate set (`**kwargs`) matches an
instance when every key resolves to the given value (field-equality
predicates, spec paragraph 4.2). -/
def matchesPreds (preds : List (String × Val)) (x : MInstance) : Bool :=
  preds.all (fun p => decide (x.attr p.1 = some p.2))

/-- Modelled from the spec: reading a datetime-valued field for
`earliest`/`latest` ordering; absent or non-integer fields order as 0. -/
def MInstance.natField (x : MInstance) (f : String) : Nat :=
  match x.attr f with
  | some (Val.nat n) => n
  | _ => 0

/-- Modelled from the spec: the error taxonomy of `get` (spec paragraph 7):
`DoesNotExistError` on zero matches, `MultipleObjectsError` on more than one. -/
inductive QueryError where
  | doesNotExist
  | multipleObjects
deriving DecidableEq, Repr

instance {ε α : Type} [DecidableEq ε] [DecidableEq α] :
    DecidableEq (Except ε α) := fun a b =>
  match a, b with
  | Except.ok x, Except.ok y => decidable_of_iff (x = y) (by simp)
  | Except.error e1, Except.error e2 => decidable_of_iff (e1 = e2) (by simp)
  | Except.ok _, Except.error _ => isFalse (fun h => Except.noConfusion h)
  | Except.error _, Except.ok _ => isFalse (fun h => Except.noConfusion h)

/-- Modelled from the spec: `QuerySet.filter` keeps exactly the instances
matching all predicates; lazy evaluation is represented by applying it to the
snapshot the manager passes at call time. -/
def QuerySet.filter (preds : List (String × Val)) (qs : List MInstance) :
    List MInstance :=
  qs.filter (matchesPreds preds)

/-- Modelled from the spec: `QuerySet.exclude` keeps the instances matching
none of the complement, i.e. drops the matching ones. -/
def QuerySet.exclude (preds : List (String × Val)) (qs : List MInstance) :
    List MInstance :=
  qs.filter (fun x => !(matchesPreds preds x))

/-- Modelled from the spec: `QuerySet.earliest(field_name)` is the minimum by
the named field, `None` on an empty collection; insertion order breaks ties
(the earlier-inserted instance wins), which is the basis stated in spec
paragraph 5 for the default `first` semantics. -/
def QuerySet.earliest (f : String) : List MInstance → Option MInstance
  | [] => none
  | x :: xs =>
      some (xs.foldl (fun b y => if y.natField f < b.natField f then y else b) x)

/-- Modelled from the spec: `QuerySet.latest(field_name)` is the maximum by the
named field, `None` on an empty collection; insertion order breaks ties (the
later-inserted instance wins), the basis for the default `last` semantics. -/
def QuerySet.latest (f : String) : List MInstance → Option MInstance
  | [] => none
  | x :: xs =>
      some (xs.foldl (fun b y => if b.natField f ≤ y.natField f then y else b) x)

/-- Modelled from the spec: `QuerySet.get(**predicates)` fails with
`DoesNotExistError` on zero matches, `MultipleObjectsError` on more than one,
and returns the unique match otherwise. -/
def QuerySet.get (preds : List (String × Val)) (qs : List MInstance) :
    Except QueryError MInstance :=
  match qs.filter (matchesPreds preds) with
  | [] => Except.error QueryError.doesNotExist
  | [x] => Except.ok x
  | _ => Except.error QueryError.multipleObjects

/-- Modelled from the spec: `QuerySet.random()` selects among the current
matches using an ambient randomness source (here an explicit `choice` seed)
and returns `None` on an empty collection. -/
def QuerySet.random (choice : Nat) (qs : List MInstance) : Option MInstance :=
  qs[choice % qs.length]?

/-- Modelled from the spec: `QuerySet.count()` is the number of instances. -/
def QuerySet.count (qs : List MInstance) : Nat := qs.length

/-- The process-wide store mapping state: model type name to the ordered
collection of live instances of that type (spec paragraph 4.1). -/
def GlobalStore : Type := String → List MInstance

/-- Modelled from the spec: `ModelStoreMapping.get(modelName)` returns the
model's collection, created empty if absent. -/
def ModelStoreMapping.get (g : GlobalStore) (name : String) : List MInstance :=
  g name

/-- Writing back one model's collection into the store mapping (the effect of
mutating the sequence obtained from `ModelStoreMapping.get`). -/
def ModelStoreMapping.set (g : GlobalStore) (name : String)
    (coll : List MInstance) : GlobalStore :=
  fun n => if n = name then coll else g n

/-- A model class, as far as the manager layer uses it: its `__name__`. -/
structure ModelType where
  name : String
deriving DecidableEq, Repr

/-- `Manager`: holds only its model binding (`self.model = model`); the
collection itself is re-resolved from the global mapping on every access. -/
structure Manager where
  model : ModelType
deriving DecidableEq, Repr

/-- `Manager.store` property: `ModelStoreMapping.get(self.model.__name__)`. -/
def Manager.store (m : Manager) (g : GlobalStore) : List MInstance :=
  ModelStoreMapping.get g m.model.name

/-- `Manager.get_queryset`: `QuerySet(self.store, model=self.model)`, i.e. a
queryset over the current snapshot of the model's collection. -/
def Manager.get_queryset (m : Manager) (g : GlobalStore) : List MInstance :=
  m.store g

/-- `Manager.all`: returns `self.get_queryset()`. -/
def Manager.all (m : Manager) (g : GlobalStore) : List MInstance :=
  m.get_queryset g

/-- `Manager.count`: `self.all().count()`. -/
def Manager.count (m : Manager) (g : GlobalStore) : Nat :=
  QuerySet.count (m.all g)

/-- `Manager._add`: sets `instance.created = instance.updated = utcnow()`,
appends to the store, returns the instance. The single `utcnow()` call is the
explicit `now`; the returned pair is (stamped instance, updated store state). -/
def Manager._add (m : Manager) (now : Nat) (x : MInstance) (g : GlobalStore) :
    MInstance × GlobalStore :=
  let x' := { x with created := now, updated := now }
  (x', ModelStoreMapping.set g m.model.name (m.store g ++ [x']))

/-- `Manager._clear`: `self.store.clear()`. -/
def Manager._clear (m : Manager) (g : GlobalStore) : GlobalStore :=
  ModelStoreMapping.set g m.model.name []

/-- Python `list.remove`: drop the first occurrence, `none` when absent. -/
def listRemove (x : MInstance) : List MInstance → Option (List MInstance)
  | [] => none
  | y :: ys => if y = x then some ys else (listRemove x ys).map (fun l => y :: l)

/-- `Manager._delete`: `self.store.remove(obj)`; removing an absent instance
fails (the `NotFoundError` policy of spec paragraph 7, a `ValueError` in the
source's list semantics), modelled as `Except.error ()`. -/
def Manager._delete (m : Manager) (x : MInstance) (g : GlobalStore) :
    Except Unit GlobalStore :=
  match listRemove x (m.store g) with
  | some l => Except.ok (ModelStoreMapping.set g m.model.name l)
  | none => Except.error ()

/-- `Manager.earliest`: proxy to `self.all().earliest(field_name)`. -/
def Manager.earliest (m : Manager) (f : String) (g : GlobalStore) :
    Option MInstance :=
  QuerySet.earliest f (m.all g)

/-- `Manager.latest`: proxy to `self.all().latest(field_name)`. -/
def Manager.latest (m : Manager) (f : String) (g : GlobalStore) :
    Option MInstance :=
  QuerySet.latest f (m.all g)

/-- `Manager.first`: `self.all().earliest()` with the queryset's default
field `created`. -/
def Manager.first (m : Manager) (g : GlobalStore) : Option MInstance :=
  QuerySet.earliest "created" (m.all g)

/-- `Manager.last`: `self.all().latest()` with the queryset's default field
`created`. -/
def Manager.last (m : Manager) (g : GlobalStore) : Option MInstance :=
  QuerySet.latest "created" (m.all g)

/-- `Manager.filter`: proxy to `self.all().filter(**kwargs)`. -/
def Manager.filter (m : Manager) (preds : List (String × Val))
    (g : GlobalStore) : List MInstance :=
  QuerySet.filter preds (m.all g)

/-- `Manager.exclude`: proxy to `self.all().exclude(**kwargs)`. -/
def Manager.exclude (m : Manager) (preds : List (String × Val))
    (g : GlobalStore) : List MInstance :=
  QuerySet.exclude preds (m.all g)

/-- `Manager.get`: proxy to `self.all().get(**kwargs)`. -/
def Manager.get (m : Manager) (preds : List (String × Val)) (g : GlobalStore) :
    Except QueryError MInstance :=
  QuerySet.get preds (m.all g)

/-- `Manager.random`: proxy to `self.all().random()`. -/
def Manager.random (m : Manager) (choice : Nat) (g : GlobalStore) :
    Option MInstance :=
  QuerySet.random choice (m.all g)

/-- `Manager.__contains__`: `bool(self.get(name=item))`. A model instance is
truthy, so a successful `get` yields `true`; an error raised by `get`
propagates out of the membership test. -/
def Manager.contains (m : Manager) (item : String) (g : GlobalStore) :
    Except QueryError Bool :=
  match m.get [("name", Val.str item)] g with
  | Except.ok _ => Except.ok true
  | Except.error e => Except.error e

/-- The `AttributeError` raised at the descriptor boundary: what the
specification's taxonomy calls `AccessError`. The constructors carry the
owner class name interpolated into the source's message. -/
inductive AttrError where
  | managerNotAccessibleViaInstances (ownerName : String)
  | relatedManagerNotAccessibleViaClass (ownerName : String)
deriving DecidableEq, Repr

/-- `ManagerDescriptor` state: `self.manager`, initially `None`. -/
structure ManagerDescriptor where
  manager : Option Manager
deriving DecidableEq, Repr

/-- `ManagerDescriptor.__get__(instance, owner)`: raises when reached through
an instance; otherwise lazily constructs `Manager(model=owner)` on first
access and caches it in `self.manager`. Returns the manager together with the
descriptor's post-access state. -/
def ManagerDescriptor.get (d : ManagerDescriptor) (inst : Option MInstance)
    (owner : ModelType) : Except AttrError (Manager × ManagerDescriptor) :=
  match inst with
  | some _ =>
      Except.error (AttrError.managerNotAccessibleViaInstances owner.name)
  | none =>
      match d.manager with
      | none =>
          let m : Manager := ⟨owner⟩
          Except.ok (m, ⟨some m⟩)
      | some m => Except.ok (m, d)

/-- `RelatedManagerDescriptor` state: the related model it was declared with. -/
structure RelatedManagerDescriptor where
  model : ModelType
deriving DecidableEq, Repr

/-- A `RelatedManager`: the class synthesized inside
`RelatedManagerDescriptor.__get__`, closed over the owning instance; `oid` is
the allocation identity distinguishing separately constructed objects. -/
structure RelatedManager where
  model : ModelType
  owner : MInstance
  oid : Nat
deriving DecidableEq, Repr

/-- Python `str.lower()` on a class name: lower-case each character. -/
def strLower (s : String) : String := ⟨s.data.map Char.toLower⟩

/-- The foreign-key lookup key the Related Manager filters by:
`'{}__pk'.format(type(instance).__name__.lower())`. -/
def fkKey (i : MInstance) : String := strLower i.typeName ++ "__pk"

/-- `RelatedManagerDescriptor.__get__(instance, owner)`: raises when reached
through the class; otherwise constructs a fresh `RelatedManager(model=self.model)`
closed over the instance, never caching it. `fresh` is the allocation counter. -/
def RelatedManagerDescriptor.get (d : RelatedManagerDescriptor)
    (inst : Option MInstance) (owner : ModelType) (fresh : Nat) :
    Except AttrError (RelatedManager × Nat) :=
  match inst with
  | none =>
      Except.error (AttrError.relatedManagerNotAccessibleViaClass owner.name)
  | some i => Except.ok (⟨d.model, i, fresh⟩, fresh + 1)

/-- `RelatedManager.get_queryset`: `super().get_queryset().filter(
**{'{}__pk'.format(type(instance).__name__.lower()): instance.pk})`. -/
def RelatedManager.get_queryset (rm : RelatedManager) (g : GlobalStore) :
    List MInstance :=
  QuerySet.filter [(fkKey rm.owner, Val.nat rm.owner.pk)]
    (Manager.get_queryset ⟨rm.model⟩ g)

/-- `RelatedManager.all`, inherited from `Manager`: routes through the
overridden `get_queryset`. -/
def RelatedManager.all (rm : RelatedManager) (g : GlobalStore) :
    List MInstance :=
  rm.get_queryset g

/-- `RelatedManager.filter`, inherited: `self.all().filter(**kwargs)`. -/
def RelatedManager.filter (rm : RelatedManager) (preds : List (String × Val))
    (g : GlobalStore) : List MInstance :=
  QuerySet.filter preds (rm.all g)

/-- `RelatedManager.get`, inherited: `self.all().get(**kwargs)`. -/
def RelatedManager.get (rm : RelatedManager) (preds : List (String × Val))
    (g : GlobalStore) : Except QueryError MInstance :=
  QuerySet.get preds (rm.all g)

/-- `RelatedManager.first`, inherited: `self.all().earliest()`. -/
def RelatedManager.first (rm : RelatedManager) (g : GlobalStore) :
    Option MInstance :=
  QuerySet.earliest "created" (rm.all g)

/- Concrete fixtures used by witness theorems. -/

/-- An owning instance of model type `Owner` with pk 1. -/
def ownerO : MInstance := ⟨"Owner", 1, "o", 0, 0, []⟩

/-- An `Item` instance related to `ownerO` (foreign key `owner` holds pk 1). -/
def itemA : MInstance := ⟨"Item", 10, "a", 0, 0, [("owner", 1)]⟩

/-- An `Item` instance related to a different owner (pk 2). -/
def itemB : MInstance := ⟨"Item", 11, "b", 0, 0, [("owner", 2)]⟩

/-- An `Item` instance not yet stored, used to exercise `_add`. -/
def itemC : MInstance := ⟨"Item", 12, "c", 0, 0, []⟩

/-- A store state holding `itemA` and `itemB` under model name `Item`. -/
def gItems : GlobalStore := fun n => if n = "Item" then [itemA, itemB] else []

/-- The empty store state. -/
def gEmpty : GlobalStore := fun _ => []

/-- The manager for model type `Item`. -/
def mgrItem : Manager := ⟨⟨"Item"⟩⟩

/-- A Related Manager over `Item` scoped to `ownerO`. -/
def rmO : RelatedManager := ⟨⟨"Item"⟩, ownerO, 0⟩

/- Helper lemmas. -/

/-- Writing a collection under a name and reading it back yields it. -/
theorem ModelStoreMapping.get_set (g : GlobalStore) (name : String)
    (coll : List MInstance) :
    ModelStoreMapping.get (ModelStoreMapping.set g name coll) name = coll := by
  simp [ModelStoreMapping.get, ModelStoreMapping.set]

/-- A left fold whose step always keeps one of its two arguments lands on the
seed or on a list element. -/
theorem foldl_choice_mem (op : MInstance → MInstance → MInstance)
    (hop : ∀ b y, op b y = b ∨ op b y = y) :
    ∀ (xs : List MInstance) (b : MInstance),
      xs.foldl op b = b ∨ xs.foldl op b ∈ xs := by
  intro xs
  induction xs with
  | nil => intro b; left; rfl
  | cons y ys ih =>
      intro b
      simp only [List.foldl_cons]
      rcases ih (op b y) with h | h
      · rw [h]
        rcases hop b y with h2 | h2
        · left; exact h2
        · right; rw [h2]; exact List.mem_cons_self y ys
      · right; exact List.mem_cons_of_mem y h

/-- The step of `QuerySet.earliest` keeps one of its two arguments. -/
theorem minStep_choice (f : String) (b y : MInstance) :
    (if y.natField f < b.natField f then y else b) = b ∨
    (if y.natField f < b.natField f then y else b) = y := by
  by_cases h : y.natField f < b.natField f
  · right; rw [if_pos h]
  · left; rw [if_neg h]

/-- The step of `QuerySet.latest` keeps one of its two arguments. -/
theorem maxStep_choice (f : String) (b y : MInstance) :
    (if b.natField f ≤ y.natField f then y else b) = b ∨
    (if b.natField f ≤ y.natField f then y else b) = y := by
  by_cases h : b.natField f ≤ y.natField f
  · right; rw [if_pos h]
  · left; rw [if_neg h]

/-- A successful `QuerySet.earliest` result is a member of the queryset. -/
theorem QuerySet.earliest_mem (f : String) (qs : List MInstance)
    (x : MInstance) (h : QuerySet.earliest f qs = some x) : x ∈ qs := by
  cases qs with
  | nil => simp [QuerySet.earliest] at h
  | cons y ys =>
      simp only [QuerySet.earliest, Option.some.injEq] at h
      rcases foldl_choice_mem _ (fun b z => minStep_choice f b z) ys y
        with h2 | h2
      · rw [h2] at h; rw [← h]; exact List.mem_cons_self y ys
      · rw [← h]; exact List.mem_cons_of_mem y h2

/-- A successful `QuerySet.latest` result is a member of the queryset. -/
theorem QuerySet.latest_mem (f : String) (qs : List MInstance)
    (x : MInstance) (h : QuerySet.latest f qs = some x) : x ∈ qs := by
  cases qs with
  | nil => simp [QuerySet.latest] at h
  | cons y ys =>
      simp only [QuerySet.latest, Option.some.injEq] at h
      rcases foldl_choice_mem _ (fun b z => maxStep_choice f b z) ys y
        with h2 | h2
      · rw [h2] at h; rw [← h]; exact List.mem_cons_self y ys
      · rw [← h]; exact List.mem_cons_of_mem y h2

/-- A successful `QuerySet.get` result is a member of the queryset. -/
theorem QuerySet.get_ok_mem (preds : List (String × Val))
    (qs : List MInstance) (x : MInstance)
    (h : QuerySet.get preds qs = Except.ok x) : x ∈ qs := by
  unfold QuerySet.get at h
  rcases hf : qs.filter (matchesPreds preds) with _ | ⟨y, ys⟩
  · rw [hf] at h; exact absurd h (by simp)
  · rcases ys with _ | ⟨z, zs⟩
    · rw [hf] at h
      have hyx : y = x := by simpa using h
      have hmem : x ∈ qs.filter (matchesPreds preds) := by
        rw [hf, ← hyx]; exact List.mem_cons_self y []
      exact List.mem_of_mem_filter hmem
    · rw [hf] at h; exact absurd h (by simp)

/-- Every member of a related manager's queryset carries the owner's pk in the
foreign-key field named by the lower-cased owner type. -/
theorem RelatedManager.mem_get_queryset_attr (rm : RelatedManager)
    (g : GlobalStore) (x : MInstance) (hx : x ∈ rm.get_queryset g) :
    x.attr (fkKey rm.owner) = some (Val.nat rm.owner.pk) := by
  unfold RelatedManager.get_queryset QuerySet.filter at hx
  have hm := List.of_mem_filter hx
  simp only [matchesPreds, List.all_cons, List.all_nil, Bool.and_true,
    decide_eq_true_eq] at hm
  exact hm

/- Claim theorems. -/

/-- C1: accessing the Manager through a model instance fails with the
descriptor's access error, and accessing the Related Manager through the
model class fails likewise; both errors arise at `__get__` and surface to the
caller as the `Except.error` result. -/
theorem c1_descriptor_access_errors :
    (∀ (d : ManagerDescriptor) (i : MInstance) (owner : ModelType),
      ManagerDescriptor.get d (some i) owner =
        Except.error (AttrError.managerNotAccessibleViaInstances owner.name)) ∧
    (∀ (d : RelatedManagerDescriptor) (owner : ModelType) (fresh : Nat),
      RelatedManagerDescriptor.get d none owner fresh =
        Except.error (AttrError.relatedManagerNotAccessibleViaClass owner.name)) := by
  exact ⟨fun d i owner => rfl, fun d owner fresh => rfl⟩

/-- C3: `_add` stamps `created` and `updated` with the single current-time
reading so they are equal, returns the stamped instance, appends it to the
model's store collection, and thereby makes it visible to queries
(membership in `all()` over the post-state). -/
theorem c3_add_stamps_appends_returns :
    ∀ (m : Manager) (now : Nat) (x : MInstance) (g : GlobalStore),
      (m._add now x g).1 = { x with created := now, updated := now } ∧
      (m._add now x g).1.created = now ∧
      (m._add now x g).1.created = (m._add now x g).1.updated ∧
      m.store (m._add now x g).2 = m.store g ++ [(m._add now x g).1] ∧
      (m._add now x g).1 ∈ m.all (m._add now x g).2 := by
  intro m now x g
  refine ⟨rfl, rfl, rfl, ?_, ?_⟩
  · exact ModelStoreMapping.get_set g m.model.name _
  · have h4 : m.store (m._add now x g).2 = m.store g ++ [(m._add now x g).1] :=
      ModelStoreMapping.get_set g m.model.name _
    show (m._add now x g).1 ∈ m.store (m._add now x g).2
    rw [h4]
    exact List.mem_append_right _ (List.mem_cons_self _ [])

/-- C4: for every store state, `first()` coincides with `earliest('created')`
and `last()` with `latest('created')`: both pairs route through the same
queryset call with the default field `created`. -/
theorem c4_first_last_defaults :
    ∀ (m : Manager) (g : GlobalStore),
      m.first g = m.earliest "created" g ∧ m.last g = m.latest "created" g :=
  fun _ _ => ⟨rfl, rfl⟩

/-- C8: the class-side descriptor constructs the Manager lazily on first
access, caching it bound to the accessing model type; on any descriptor whose
cache is populated, a class-side access returns exactly the cached manager and
leaves the state unchanged, so all subsequent accesses yield that one object. -/
theorem c8_manager_descriptor_caches :
    ∀ (owner : ModelType),
      ManagerDescriptor.get ⟨none⟩ none owner =
        Except.ok (⟨owner⟩, ⟨some ⟨owner⟩⟩) ∧
      (∀ (d : ManagerDescriptor) (m : Manager), d.manager = some m →
        ManagerDescriptor.get d none owner = Except.ok (m, d)) := by
  intro owner
  refine ⟨rfl, ?_⟩
  intro d m h
  unfold ManagerDescriptor.get
  rw [h]

/-- C8 witness: a descriptor already caching the Item manager returns it
unchanged on class-side access. -/
theorem c8_manager_descriptor_caches_witness :
    ManagerDescriptor.get ⟨some mgrItem⟩ none ⟨"Item"⟩ =
      Except.ok (mgrItem, ⟨some mgrItem⟩) :=
  (c8_manager_descriptor_caches ⟨"Item"⟩).2 ⟨some mgrItem⟩ mgrItem rfl

/-- C9: every instance-side access of the related descriptor succeeds with a
fresh Related Manager parameterized by that instance; two successive accesses
from the same owning instance yield distinct Related Manager objects
(distinct allocation identities), since nothing is cached. -/
theorem c9_related_manager_fresh :
    ∀ (d : RelatedManagerDescriptor) (i : MInstance) (owner : ModelType)
      (n : Nat),
      ∃ rm1 rm2 : RelatedManager,
        RelatedManagerDescriptor.get d (some i) owner n =
          Except.ok (rm1, n + 1) ∧
        RelatedManagerDescriptor.get d (some i) owner (n + 1) =
          Except.ok (rm2, n + 2) ∧
        rm1.owner = i ∧ rm2.owner = i ∧ rm1 ≠ rm2 := by
  intro d i owner n
  refine ⟨⟨d.model, i, n⟩, ⟨d.model, i, n + 1⟩, rfl, rfl, rfl, rfl, ?_⟩
  intro h
  have hoid : n = n + 1 := congrArg RelatedManager.oid h
  omega

/-- C10: a Manager holds only its model binding; its store is re-resolved from
the global mapping by model class name on every access, so two Managers for
the same model type observe the same collection, agree on every operation, and
a mutation through one is visible through the other. -/
theorem c10_manager_stateless_shared_store :
    ∀ (m1 m2 : Manager), m1.model = m2.model →
      ∀ (g : GlobalStore) (now : Nat) (x : MInstance)
        (preds : List (String × Val)),
        m1.store g = ModelStoreMapping.get g m1.model.name ∧
        m1.store g = m2.store g ∧
        m1.all g = m2.all g ∧
        m1.count g = m2.count g ∧
        m1.get preds g = m2.get preds g ∧
        (m1._add now x g).2 = (m2._add now x g).2 ∧
        m1._delete x g = m2._delete x g ∧
        m2.store (m1._add now x g).2 =
          m2.store g ++ [(m1._add now x g).1] ∧
        m2.store (m1._clear g) = [] := by
  intro m1 m2 hmodel g now x preds
  have hm : m1 = m2 := by
    cases m1; cases m2; cases hmodel; rfl
  subst hm
  refine ⟨rfl, rfl, rfl, rfl, rfl, rfl, rfl, ?_, ?_⟩
  · exact ModelStoreMapping.get_set g m1.model.name _
  · exact ModelStoreMapping.get_set g m1.model.name _

/-- C10 witness: adding `itemC` through the Item manager is visible through
the (equal-model) Item manager's store view. -/
theorem c10_manager_stateless_shared_store_witness :
    Manager.store mgrItem ((Manager._add mgrItem 5 itemC gItems).2) =
      Manager.store mgrItem gItems ++ [(Manager._add mgrItem 5 itemC gItems).1] :=
  (c10_manager_stateless_shared_store mgrItem mgrItem rfl gItems 5 itemC
    []).2.2.2.2.2.2.2.1

/-- C2: the Related Manager's `get_queryset()` is the plain Manager's
`get_queryset()` further filtered by the predicate binding the foreign-key
field `<lower-cased owner type>__pk` to the owner's pk, and every query
operation routed through it — `all`, `filter`, `get`, `first` — yields only
instances satisfying that foreign-key predicate. -/
theorem c2_related_manager_scoped :
    ∀ (rm : RelatedManager) (g : GlobalStore),
      rm.get_queryset g =
        QuerySet.filter [(fkKey rm.owner, Val.nat rm.owner.pk)]
          (Manager.get_queryset ⟨rm.model⟩ g) ∧
      (∀ x ∈ rm.all g,
        x.attr (fkKey rm.owner) = some (Val.nat rm.owner.pk)) ∧
      (∀ preds x, x ∈ rm.filter preds g →
        x.attr (fkKey rm.owner) = some (Val.nat rm.owner.pk)) ∧
      (∀ preds x, rm.get preds g = Except.ok x →
        x.attr (fkKey rm.owner) = some (Val.nat rm.owner.pk)) ∧
      (∀ x, rm.first g = some x →
        x.attr (fkKey rm.owner) = some (Val.nat rm.owner.pk)) := by
  intro rm g
  refine ⟨rfl, ?_, ?_, ?_, ?_⟩
  · intro x hx
    exact rm.mem_get_queryset_attr g x hx
  · intro preds x hx
    exact rm.mem_get_queryset_attr g x (List.mem_of_mem_filter hx)
  · intro preds x hx
    exact rm.mem_get_queryset_attr g x (QuerySet.get_ok_mem preds _ x hx)
  · intro x hx
    exact rm.mem_get_queryset_attr g x (QuerySet.earliest_mem "created" _ x hx)

/-- C2 witness: in a store holding one Item related to `ownerO` and one
related to another owner, the related query sees `itemA`, and `itemA`
satisfies the foreign-key predicate. -/
theorem c2_related_manager_scoped_witness :
    MInstance.attr itemA (fkKey rmO.owner) = some (Val.nat rmO.owner.pk) :=
  (c2_related_manager_scoped rmO gItems).2.1 itemA (by decide)

/-- C5: `get(**predicates)` fails with `DoesNotExistError` when zero stored
instances match, fails with `MultipleObjectsError` when more than one
matches, and returns the unique matching instance otherwise. -/
theorem c5_get_zero_one_many :
    ∀ (m : Manager) (preds : List (String × Val)) (g : GlobalStore),
      ((m.all g).filter (matchesPreds preds) = [] →
        m.get preds g = Except.error QueryError.doesNotExist) ∧
      (∀ x, (m.all g).filter (matchesPreds preds) = [x] →
        m.get preds g = Except.ok x) ∧
      (∀ x y l, (m.all g).filter (matchesPreds preds) = x :: y :: l →
        m.get preds g = Except.error QueryError.multipleObjects) := by
  intro m preds g
  refine ⟨?_, ?_, ?_⟩
  · intro h
    show QuerySet.get preds (m.all g) = _
    unfold QuerySet.get
    rw [h]
  · intro x h
    show QuerySet.get preds (m.all g) = _
    unfold QuerySet.get
    rw [h]
  · intro x y l h
    show QuerySet.get preds (m.all g) = _
    unfold QuerySet.get
    rw [h]

/-- C5 witness: exactly one stored Item is named `a`, and `get(name='a')`
returns it. -/
theorem c5_get_zero_one_many_witness :
    Manager.get mgrItem [("name", Val.str "a")] gItems = Except.ok itemA :=
  (c5_get_zero_one_many mgrItem [("name", Val.str "a")] gItems).2.1 itemA
    (by decide)

/-- C6: on an empty collection, `earliest`, `latest`, `random`, `first` and
`last` each return the absent-value sentinel `none` rather than erroring. -/
theorem c6_empty_sentinels :
    ∀ (m : Manager) (g : GlobalStore), m.store g = [] →
      (∀ f, m.earliest f g = none) ∧
      (∀ f, m.latest f g = none) ∧
      (∀ c, m.random c g = none) ∧
      m.first g = none ∧
      m.last g = none := by
  intro m g h
  have hall : m.all g = [] := h
  refine ⟨?_, ?_, ?_, ?_, ?_⟩
  · intro f
    show QuerySet.earliest f (m.all g) = none
    rw [hall]
    rfl
  · intro f
    show QuerySet.latest f (m.all g) = none
    rw [hall]
    rfl
  · intro c
    show QuerySet.random c (m.all g) = none
    rw [hall]
    rfl
  · show QuerySet.earliest "created" (m.all g) = none
    rw [hall]
    rfl
  · show QuerySet.latest "created" (m.all g) = none
    rw [hall]
    rfl

/-- C6 witness: on the empty store, `first()` returns `none`. -/
theorem c6_empty_sentinels_witness : Manager.first mgrItem gEmpty = none :=
  (c6_empty_sentinels mgrItem gEmpty rfl).2.2.2.1

/-- C7 counterexample: with an empty store, `'x' in manager` does not return
`false`; `__contains__` calls `self.get(name='x')`, whose
`DoesNotExistError` propagates out of the membership test. -/
theorem c7_contains_counterexample :
    Manager.contains mgrItem "x" gEmpty =
      Except.error QueryError.doesNotExist ∧
    ¬ Manager.contains mgrItem "x" gEmpty = Except.ok false := by
  refine ⟨rfl, ?_⟩
  intro h
  exact absurd h (by decide)

/-- C7 (amended): `item in manager` returns `true` exactly when
`get(name=item)` succeeds with an instance; when `get` fails — in particular
with `DoesNotExistError` when no stored instance has a `name` equal to
`item` — the membership test propagates that error instead of returning
`false`, and `false` is never returned. -/
theorem c7_contains_amended :
    ∀ (m : Manager) (item : String) (g : GlobalStore),
      (m.contains item g = Except.ok true ↔
        ∃ x, m.get [("name", Val.str item)] g = Except.ok x) ∧
      (∀ e, m.get [("name", Val.str item)] g = Except.error e →
        m.contains item g = Except.error e) ∧
      (∀ b, m.contains item g = Except.ok b → b = true) := by
  intro m item g
  refine ⟨⟨?_, ?_⟩, ?_, ?_⟩
  · intro h
    unfold Manager.contains at h
    rcases hg : m.get [("name", Val.str item)] g with e | x
    · rw [hg] at h
      exact absurd h (by simp)
    · exact ⟨x, rfl⟩
  · rintro ⟨x, hx⟩
    unfold Manager.contains
    rw [hx]
  · intro e he
    unfold Manager.contains
    rw [he]
  · intro b hb
    unfold Manager.contains at hb
    rcases hg : m.get [("name", Val.str item)] g with e | x <;> rw [hg] at hb
    · exact absurd hb (by simp)
    · simpa using hb

/-- C7 (amended) witness: `'a' in manager` is `true` over the store holding
an Item named `a`. -/
theorem c7_contains_amended_witness :
    Manager.contains mgrItem "a" gItems = Except.ok true :=
  ((c7_contains_amended mgrItem "a" gItems).1).mpr ⟨itemA, by decide⟩

end Reobject
